import Mathlib

/-!
Shallow embedding of the school bell-scheduling application
(clock/trigger engine, announcement sequencer, persistence loader,
schedule store) and proofs of the specification claims about it.

The embedding follows the source:
  * `ScheduleItem` / `AppSettings` mirror the exported interfaces of the
    types module (`id`, `period`, `startTime`, `endTime`, `teacher`,
    `gender`, `subject`, `className`, `isActive`; `schoolName`,
    `isAutoEnabled`, `voiceName`).
  * `tickMatch` / `fullTick` / `runTicks` model the body of the clock
    `setInterval` callback in `App`: the `isAutoEnabled` check, the
    `lastTriggered !== timeStr` minute guard, the
    `schedule.find(item => item.isActive && item.startTime === timeStr)`
    scan, and the `triggerBell(matchingItem); setLastTriggered(timeStr)`
    actions.
  * `triggerBellTrace` / `bodyEvents` model `triggerBell`: the
    `isAnnouncing` early return, the try/catch/finally wrapper
    (an arbitrary prefix of the body may run before a thrown error, the
    finally clause always runs), the chime, the composed text, the
    synthesis call, and the playback-or-browser-TTS-fallback branching,
    including the JavaScript truthiness test `if (audioData)`.
  * `fetchedSchedule` models the schedule part of the initial
    `fetchData` effect: Supabase configured or not, schedule query
    error, the `scheduleData.length > 0` check, the settings query
    error, and the localStorage fallback in the catch branch.
  * `handleAddSchedule`, `handleEditSchedule`, `handleDelete`,
    `toggleActive`, `nextBell` mirror the CRUD handlers and the derived
    next-bell view.
-/

namespace SchoolBell

/-- Mirrors the `ScheduleItem` interface: `gender` is the closed union
of the two form-of-address strings, modelled as `String`. -/
structure ScheduleItem where
  id : String
  period : Nat
  startTime : String
  endTime : String
  teacher : String
  gender : String
  subject : String
  className : String
  isActive : Bool
deriving DecidableEq, Repr

/-- Mirrors the `AppSettings` interface; `voiceName` is one of five
voice identifiers, modelled as `String`. -/
structure AppSettings where
  schoolName : String
  isAutoEnabled : Bool
  voiceName : String
deriving DecidableEq, Repr

/-- The built-in default schedule seeded when no stored data exists. -/
def DEFAULT_SCHEDULE : List ScheduleItem :=
  [ { id := "1", period := 1, startTime := "07:00", endTime := "07:45",
      teacher := "Budi Santoso", gender := "Bapak", subject := "Matematika",
      className := "X-A", isActive := true },
    { id := "2", period := 2, startTime := "07:45", endTime := "08:30",
      teacher := "Siti Aminah", gender := "Ibu", subject := "Bahasa Indonesia",
      className := "XI-B", isActive := true },
    { id := "3", period := 3, startTime := "08:30", endTime := "09:15",
      teacher := "Siti Aminah", gender := "Ibu", subject := "Bahasa Indonesia",
      className := "XI-B", isActive := true },
    { id := "4", period := 4, startTime := "09:30", endTime := "10:15",
      teacher := "Joko Widodo", gender := "Bapak", subject := "Fisika",
      className := "XII-C", isActive := true },
    { id := "5", period := 5, startTime := "10:15", endTime := "11:00",
      teacher := "Joko Widodo", gender := "Bapak", subject := "Fisika",
      className := "XII-C", isActive := true } ]

/-- Lexicographic strict comparison of char lists: the semantics of the
JavaScript `<` operator and of `localeCompare` on the zero-padded
`HH:mm` strings, comparing code units in order. -/
def charsLt : List Char → List Char → Bool
  | _, [] => false
  | [], _ :: _ => true
  | a :: as, b :: bs => decide (a < b) || (a == b && charsLt as bs)

/-- `a < b` on strings as JavaScript compares them. -/
def strLt (a b : String) : Bool := charsLt a.data b.data

/-- `a ≤ b` on strings: the non-strict order the sort comparator
`(a, b) => a.startTime.localeCompare(b.startTime)` induces. -/
def strLe (a b : String) : Bool := !(strLt b a)

/-- One clock tick of the trigger engine: the decision part of the
`setInterval` callback.  Returns the matched entry that `triggerBell`
is invoked with, or `none` when the tick performs no trigger action.
Mirrors: `if (settings.isAutoEnabled) { const timeStr = format(now, ...);
if (lastTriggered !== timeStr) { const matchingItem =
schedule.find(item => item.isActive && item.startTime === timeStr); ... } }`. -/
def tickMatch (settings : AppSettings) (schedule : List ScheduleItem)
    (lastTriggered : Option String) (timeStr : String) : Option ScheduleItem :=
  if settings.isAutoEnabled then
    if lastTriggered ≠ some timeStr then
      schedule.find? (fun item => item.isActive && item.startTime == timeStr)
    else none
  else none

/-- Run a sequence of ticks (each given by its `HH:mm` string), threading
`lastTriggered` exactly as the callback does (`setLastTriggered(timeStr)`
runs whenever a matching item was found), and return the list of minutes
at which a trigger fired. -/
def runTicks (settings : AppSettings) (schedule : List ScheduleItem) :
    Option String → List String → List String
  | _, [] => []
  | lt, t :: ts =>
    match tickMatch settings schedule lt t with
    | some _ => t :: runTicks settings schedule (some t) ts
    | none => runTicks settings schedule lt ts

/-- Observable steps of one `triggerBell` run. -/
inductive BellEvent where
  | setAnnouncing (b : Bool)
  | playChime
  | synthesize (text : String) (voice : String)
  | playAudio (data : String)
  | fallbackSpeak (text : String) (lang : String)
deriving DecidableEq, Repr

/-- Environment of one `triggerBell` run: the outcome of the synthesis
call (`generateAnnouncementAudio` returns a base64 string or
`undefined`), whether `playAudioFromBase64` rejects, and whether the try
body throws after some number of completed steps (`none` = no throw). -/
structure BellEnv where
  audioData : Option String
  playbackFails : Bool
  throwAfter : Option Nat
deriving DecidableEq, Repr

/-- The greeting literal hardcoded in `triggerBell`. -/
def greeting : String :=
  "Assalamualaikum warahmatullohi wabarokatuh, kepada siswa SMP ISLAM ARRAUDHOH. "

/-- The announcement text composed in `triggerBell`; the template string
uses only fields of the matched item (the greeting is the fixed literal
above, no settings field occurs in the expression). -/
def announcementText (item : ScheduleItem) : String :=
  greeting ++ " Perhatian. Jam ke " ++ toString item.period ++ ". Pukul " ++
    item.startTime ++ ". " ++ item.gender ++ " Guru " ++ item.teacher ++
    ", pengampu mata pelajaran " ++ item.subject ++
    ", dipersilakan masuk kelas " ++ item.className ++ ". Selamat belajar."

/-- JavaScript truthiness of the synthesis result: `undefined` and the
empty string are falsy in `if (audioData)`. -/
def jsTruthy : Option String → Bool
  | none => false
  | some s => !(s == "")

/-- The steps of the try body of `triggerBell` after the guard, as they
run when no exception interrupts them: chime (its own failure is
swallowed by the promise resolving either way), synthesis request, then
either playback of the returned audio (falling back to browser TTS with
the same text and `id-ID` locale when playback fails) or the fallback
directly when no usable audio came back. -/
def bodyEvents (settings : AppSettings) (env : BellEnv) (item : ScheduleItem) :
    List BellEvent :=
  let text := announcementText item
  [BellEvent.playChime, BellEvent.synthesize text settings.voiceName] ++
    (match env.audioData with
     | some d =>
       if d == "" then [BellEvent.fallbackSpeak text "id-ID"]
       else if env.playbackFails then
         [BellEvent.playAudio d, BellEvent.fallbackSpeak text "id-ID"]
       else [BellEvent.playAudio d]
     | none => [BellEvent.fallbackSpeak text "id-ID"])

/-- One invocation of `triggerBell`: early return when `isAnnouncing`,
otherwise `setIsAnnouncing(true)`, a (possibly throw-truncated) prefix
of the try body, and the finally clause `setIsAnnouncing(false)` that
runs on every exit path. -/
def triggerBellTrace (settings : AppSettings) (isAnnouncing : Bool)
    (env : BellEnv) (item : ScheduleItem) : List BellEvent :=
  if isAnnouncing then []
  else
    BellEvent.setAnnouncing true ::
      ((match env.throwAfter with
        | none => bodyEvents settings env item
        | some k => (bodyEvents settings env item).take k) ++
       [BellEvent.setAnnouncing false])

/-- One full tick of the interval callback including the actions taken on
a match: `triggerBell(matchingItem)` (which may early-return on
`isAnnouncing`) and `setLastTriggered(timeStr)`.  Returns the event
trace produced and the new `lastTriggered`. -/
def fullTick (settings : AppSettings) (schedule : List ScheduleItem)
    (lastTriggered : Option String) (isAnnouncing : Bool) (env : BellEnv)
    (timeStr : String) : List BellEvent × Option String :=
  match tickMatch settings schedule lastTriggered timeStr with
  | some item => (triggerBellTrace settings isAnnouncing env item, some timeStr)
  | none => ([], lastTriggered)

/-- The net effect of a trace on the `isAnnouncing` flag. -/
def announcingAfter (start : Bool) (tr : List BellEvent) : Bool :=
  tr.foldl (fun b e => match e with
    | BellEvent.setAnnouncing v => v
    | _ => b) start

/-- The schedule value produced by the initial `fetchData` effect, as a
function of: whether the Supabase client is configured, the outcome of
the ordered schedule query, whether the settings query threw a
non-`PGRST116` error, and the localStorage snapshot.  The initial React
state of `schedule` is `[]`; the catch branch only overwrites it when a
saved snapshot exists. -/
def fetchedSchedule (configured : Bool)
    (schedRes : Except Unit (List ScheduleItem)) (settingsThrow : Bool)
    (localSched : Option (List ScheduleItem)) : List ScheduleItem :=
  if configured then
    match schedRes with
    | Except.error _ =>
      match localSched with
      | some s => s
      | none => []
    | Except.ok data =>
      let afterSched := if data.length > 0 then data else DEFAULT_SCHEDULE
      if settingsThrow then
        match localSched with
        | some s => s
        | none => afterSched
      else afterSched
  else
    match localSched with
    | some s => s
    | none => DEFAULT_SCHEDULE

/-- The sort applied by the CRUD handlers:
`.sort((a, b) => a.startTime.localeCompare(b.startTime))`. -/
def sortSchedule (l : List ScheduleItem) : List ScheduleItem :=
  l.mergeSort (fun a b => strLe a.startTime b.startTime)

/-- `handleAddSchedule`: the generated random id is a parameter; the new
item gets `isActive := true`, is appended, and the result is sorted. -/
def handleAddSchedule (schedule : List ScheduleItem) (newId : String)
    (newItem : ScheduleItem) : List ScheduleItem :=
  sortSchedule (schedule ++ [{ newItem with id := newId, isActive := true }])

/-- `handleEditSchedule`: replace the entry with matching id, then sort. -/
def handleEditSchedule (schedule : List ScheduleItem)
    (updatedItem : ScheduleItem) : List ScheduleItem :=
  sortSchedule (schedule.map
    (fun item => if item.id == updatedItem.id then updatedItem else item))

/-- `handleDelete`: filter out the entry with the given id. -/
def handleDelete (schedule : List ScheduleItem) (id : String) :
    List ScheduleItem :=
  schedule.filter (fun item => !(item.id == id))

/-- `toggleActive`: find the entry, flip its `isActive`, map it back in;
no-op when the id is absent. -/
def toggleActive (schedule : List ScheduleItem) (id : String) :
    List ScheduleItem :=
  match schedule.find? (fun item => item.id == id) with
  | none => schedule
  | some itemToToggle =>
    schedule.map (fun item => if item.id == id
      then { itemToToggle with isActive := !itemToToggle.isActive }
      else item)

/-- The derived next-bell view:
`schedule.filter(i => i.isActive && i.startTime > now).sort(...)[0]`. -/
def nextBell (schedule : List ScheduleItem) (nowStr : String) :
    Option ScheduleItem :=
  (sortSchedule (schedule.filter
    (fun i => i.isActive && strLt nowStr i.startTime))).head?

/-- The collection is sorted ascending by `startTime`. -/
def SortedByStart (l : List ScheduleItem) : Prop :=
  l.Pairwise (fun a b => strLe a.startTime b.startTime = true)

instance (l : List ScheduleItem) : Decidable (SortedByStart l) := by
  unfold SortedByStart
  infer_instance

/-- `pat` occurs as a contiguous substring of `s`. -/
def strOccurs (pat s : String) : Prop :=
  ∃ l r, s.data = l ++ pat.data ++ r

/-- Executable check that `pat` is a prefix of `l`. -/
def charsHasPre : List Char → List Char → Bool
  | [], _ => true
  | _ :: _, [] => false
  | p :: ps, c :: cs => p == c && charsHasPre ps cs

/-- Executable check that `pat` occurs contiguously in `l`. -/
def charsHasSub (pat : List Char) : List Char → Bool
  | [] => pat.isEmpty
  | c :: cs => charsHasPre pat (c :: cs) || charsHasSub pat cs

/-! ### Concrete sample values used by witnesses and counterexamples -/

/-- The settings the app starts with. -/
def sampleSettings : AppSettings :=
  { schoolName := "SMP ISLAM ARRAUDHOH", isAutoEnabled := true,
    voiceName := "Kore" }

/-- The first built-in schedule entry. -/
def sampleItem : ScheduleItem :=
  { id := "1", period := 1, startTime := "07:00", endTime := "07:45",
    teacher := "Budi Santoso", gender := "Bapak", subject := "Matematika",
    className := "X-A", isActive := true }

/-- First of two active entries sharing the start time `08:00`. -/
def tieEntry1 : ScheduleItem :=
  { id := "t1", period := 2, startTime := "08:00", endTime := "08:45",
    teacher := "Siti Aminah", gender := "Ibu", subject := "Bahasa Indonesia",
    className := "XI-B", isActive := true }

/-- Second of two active entries sharing the start time `08:00`. -/
def tieEntry2 : ScheduleItem :=
  { id := "t2", period := 3, startTime := "08:00", endTime := "08:45",
    teacher := "Joko Widodo", gender := "Bapak", subject := "Fisika",
    className := "XII-C", isActive := true }

/-- An entry stored only in the local snapshot, distinct from every
built-in default. -/
def localEntry : ScheduleItem :=
  { id := "L1", period := 9, startTime := "12:00", endTime := "12:45",
    teacher := "Dewi Lestari", gender := "Ibu", subject := "Kimia",
    className := "X-B", isActive := true }

/-- Entries with a duplicated id around a middle entry, sorted by start
time: `dupA1` and `dupA2` share id `"a"`. -/
def dupA1 : ScheduleItem :=
  { id := "a", period := 1, startTime := "07:00", endTime := "07:45",
    teacher := "T1", gender := "Bapak", subject := "S1",
    className := "K1", isActive := true }

/-- Middle entry with its own id `"b"`. -/
def dupB : ScheduleItem :=
  { id := "b", period := 2, startTime := "08:00", endTime := "08:45",
    teacher := "T2", gender := "Ibu", subject := "S2",
    className := "K2", isActive := true }

/-- Second entry sharing id `"a"` with `dupA1` but a later start time. -/
def dupA2 : ScheduleItem :=
  { id := "a", period := 3, startTime := "09:00", endTime := "09:45",
    teacher := "T3", gender := "Bapak", subject := "S3",
    className := "K3", isActive := true }

/-- Settings in which the user has renamed the school. -/
def renamedSettings : AppSettings :=
  { schoolName := "SMA NEGERI 1", isAutoEnabled := true,
    voiceName := "Kore" }

/-- The third built-in entry: the next bell after `08:00`. -/
def nextEntry : ScheduleItem :=
  { id := "3", period := 3, startTime := "08:30", endTime := "09:15",
    teacher := "Siti Aminah", gender := "Ibu", subject := "Bahasa Indonesia",
    className := "XI-B", isActive := true }

/-! ### Order facts about the string comparison -/

lemma charsLt_self (l : List Char) : charsLt l l = false := by
  induction l with
  | nil => rfl
  | cons a as ih => simp [charsLt, ih]

lemma charsLt_asymm (a : List Char) :
    ∀ b, charsLt a b = true → charsLt b a = false := by
  induction a with
  | nil =>
    intro b _
    cases b <;> rfl
  | cons x xs ih =>
    intro b hb
    cases b with
    | nil => cases hb
    | cons y ys =>
      simp only [charsLt, Bool.or_eq_true, Bool.and_eq_true,
        decide_eq_true_eq, beq_iff_eq] at hb
      rcases hb with h | ⟨rfl, h2⟩
      · have hne : y ≠ x := fun hyx => absurd h (by simp [hyx])
        simp [charsLt, not_lt_of_gt h, hne]
      · simp [charsLt, ih ys h2]

lemma charsLt_trans (a : List Char) :
    ∀ b c, charsLt a b = true → charsLt b c = true → charsLt a c = true := by
  induction a with
  | nil =>
    intro b c hab hbc
    cases b with
    | nil => cases hab
    | cons y ys =>
      cases c with
      | nil => cases hbc
      | cons z zs => rfl
  | cons x xs ih =>
    intro b c hab hbc
    cases b with
    | nil => cases hab
    | cons y ys =>
      cases c with
      | nil => cases hbc
      | cons z zs =>
        simp only [charsLt, Bool.or_eq_true, Bool.and_eq_true,
          decide_eq_true_eq, beq_iff_eq] at hab hbc ⊢
        rcases hab with h1 | ⟨rfl, h1⟩
        · rcases hbc with h2 | ⟨rfl, _⟩
          · exact Or.inl (lt_trans h1 h2)
          · exact Or.inl h1
        · rcases hbc with h2 | ⟨rfl, h2⟩
          · exact Or.inl h2
          · exact Or.inr ⟨rfl, ih ys zs h1 h2⟩

lemma charsLt_connex (a : List Char) :
    ∀ b, charsLt a b = false → charsLt b a = false → a = b := by
  induction a with
  | nil =>
    intro b h1 _
    cases b with
    | nil => rfl
    | cons y ys => cases h1
  | cons x xs ih =>
    intro b h1 h2
    cases b with
    | nil => cases h2
    | cons y ys =>
      simp only [charsLt, Bool.or_eq_false_iff, Bool.and_eq_false_iff,
        decide_eq_false_iff_not, beq_iff_eq, beq_eq_false_iff_ne] at h1 h2
      have hxy : x = y := by
        rcases lt_trichotomy x y with h | h | h
        · exact absurd h h1.1
        · exact h
        · exact absurd h h2.1
      subst hxy
      rcases h1.2 with hc | hxs
      · exact absurd rfl hc
      · rcases h2.2 with hc | hys
        · exact absurd rfl hc
        · exact congrArg (x :: ·) (ih ys hxs hys)

lemma strLe_refl (a : String) : strLe a a = true := by
  simp [strLe, strLt, charsLt_self]

lemma strLe_trans {a b c : String} (h1 : strLe a b = true)
    (h2 : strLe b c = true) : strLe a c = true := by
  simp only [strLe, strLt, Bool.not_eq_true'] at h1 h2 ⊢
  by_contra hca
  rw [Bool.not_eq_false] at hca
  by_cases hab : charsLt a.data b.data = true
  · exact absurd (charsLt_trans _ _ _ hca hab) (by simp [h2])
  · have : a.data = b.data :=
      charsLt_connex _ _ (Bool.not_eq_true _ ▸ hab) h1
    rw [this] at hca
    exact absurd hca (by simp [h2])

lemma strLe_total (a b : String) : strLe a b = true ∨ strLe b a = true := by
  simp only [strLe, strLt, Bool.not_eq_true']
  by_cases h : charsLt b.data a.data = true
  · exact Or.inr (charsLt_asymm _ _ h)
  · exact Or.inl (Bool.not_eq_true _ ▸ h)

/-! ### Trigger engine lemmas -/

lemma tickMatch_same_minute (settings : AppSettings)
    (schedule : List ScheduleItem) (m : String) :
    tickMatch settings schedule (some m) m = none := by
  simp [tickMatch]

lemma runTicks_after_fire (settings : AppSettings)
    (schedule : List ScheduleItem) (m : String) :
    ∀ ticks, (∀ t ∈ ticks, t = m) →
      runTicks settings schedule (some m) ticks = [] := by
  intro ticks
  induction ticks with
  | nil => intro _; rfl
  | cons t ts ih =>
    intro h
    have ht := h t (List.mem_cons_self _ _)
    subst ht
    simp only [runTicks, tickMatch_same_minute]
    exact ih fun x hx => h x (List.mem_cons_of_mem _ hx)

lemma runTicks_length_le_one (settings : AppSettings)
    (schedule : List ScheduleItem) (m : String) :
    ∀ (ticks : List String) (lt : Option String),
      (∀ t ∈ ticks, t = m) → (runTicks settings schedule lt ticks).length ≤ 1 := by
  intro ticks
  induction ticks with
  | nil => intro lt _; simp [runTicks]
  | cons t ts ih =>
    intro lt h
    have ht := h t (List.mem_cons_self _ _)
    have hts : ∀ x ∈ ts, x = m := fun x hx => h x (List.mem_cons_of_mem _ hx)
    subst ht
    cases hmatch : tickMatch settings schedule lt t with
    | none =>
      simp only [runTicks, hmatch]
      exact ih lt hts
    | some item =>
      simp only [runTicks, hmatch, List.length_cons]
      rw [runTicks_after_fire settings schedule t ts hts]
      simp

/-- Characterisation of `List.find?` succeeding: the result is the first
element of the list satisfying the predicate. -/
lemma find?_eq_some_first {α : Type _} (p : α → Bool) :
    ∀ (l : List α) (a : α),
      l.find? p = some a ↔
        ∃ l₁ l₂, l = l₁ ++ a :: l₂ ∧ p a = true ∧ ∀ x ∈ l₁, p x = false := by
  intro l
  induction l with
  | nil =>
    intro a
    constructor
    · intro h; cases h
    · rintro ⟨l₁, l₂, heq, -, -⟩
      cases l₁ <;> cases heq
  | cons b bs ih =>
    intro a
    cases hb : p b with
    | true =>
      rw [List.find?_cons_of_pos _ hb]
      constructor
      · intro h
        injection h with h
        subst h
        exact ⟨[], bs, rfl, hb, by intro x hx; cases hx⟩
      · rintro ⟨l₁, l₂, heq, hpa, hfirst⟩
        cases l₁ with
        | nil =>
          injection heq with h1 _
          rw [h1]
        | cons c cs =>
          injection heq with h1 _
          subst h1
          exact absurd hb (by simp [hfirst b (List.mem_cons_self _ _)])
    | false =>
      rw [List.find?_cons_of_neg _ (by simp [hb]), ih a]
      constructor
      · rintro ⟨l₁, l₂, heq, hpa, hfirst⟩
        refine ⟨b :: l₁, l₂, by rw [heq]; rfl, hpa, ?_⟩
        intro x hx
        rcases List.mem_cons.mp hx with rfl | hx'
        · exact hb
        · exact hfirst x hx'
      · rintro ⟨l₁, l₂, heq, hpa, hfirst⟩
        cases l₁ with
        | nil =>
          injection heq with h1 _
          subst h1
          exact absurd hpa (by simp [hb])
        | cons c cs =>
          injection heq with h1 h2
          subst h1
          exact ⟨cs, l₂, h2, hpa, fun x hx => hfirst x (List.mem_cons_of_mem _ hx)⟩

/-- C1: within one calendar minute the trigger engine starts at most one
announcement: over any sequence of ticks carrying the same `HH:mm`
string at most one tick fires, and once `lastTriggered` holds that
minute string a tick in the same minute performs no trigger action. -/
theorem c1_minute_guard_idempotent (settings : AppSettings)
    (schedule : List ScheduleItem) (lt : Option String) (m : String)
    (ticks : List String) (h : ∀ t ∈ ticks, t = m) :
    (runTicks settings schedule lt ticks).length ≤ 1 ∧
      tickMatch settings schedule (some m) m = none :=
  ⟨runTicks_length_le_one settings schedule m ticks lt h,
    tickMatch_same_minute settings schedule m⟩

/-- Witness for C1 at a concrete sub-minute tick sequence. -/
theorem c1_minute_guard_idempotent_witness :
    (runTicks sampleSettings DEFAULT_SCHEDULE none
        ["07:00", "07:00", "07:00"]).length ≤ 1 ∧
      tickMatch sampleSettings DEFAULT_SCHEDULE (some "07:00") "07:00" =
        none :=
  c1_minute_guard_idempotent sampleSettings DEFAULT_SCHEDULE none "07:00"
    ["07:00", "07:00", "07:00"] (by decide)

/-- C2: while `isAnnouncing` is true, `triggerBell` produces no event at
all (no new sequence, no state change beyond the tick handler setting
`lastTriggered`); a tick that matches during an announcement still sets
`lastTriggered` to the minute, so the dropped match is never played
later in that minute, and a concurrent manual test produces no events
either. -/
theorem c2_announcing_match_dropped (settings : AppSettings) (env : BellEnv)
    (item : ScheduleItem) (schedule : List ScheduleItem) (lt : Option String)
    (m : String) (h : tickMatch settings schedule lt m = some item) :
    triggerBellTrace settings true env item = [] ∧
      fullTick settings schedule lt true env m = ([], some m) ∧
      ∀ ticks, (∀ t ∈ ticks, t = m) →
        runTicks settings schedule (some m) ticks = [] := by
  refine ⟨rfl, ?_, runTicks_after_fire settings schedule m⟩
  simp [fullTick, h, triggerBellTrace]

/-- Witness for C2: a concrete matching tick while announcing drops the
match but records the minute. -/
theorem c2_announcing_match_dropped_witness :
    triggerBellTrace sampleSettings true ⟨none, false, none⟩ sampleItem =
        [] ∧
      fullTick sampleSettings DEFAULT_SCHEDULE none true ⟨none, false, none⟩
        "07:00" = ([], some "07:00") := by
  have h := c2_announcing_match_dropped sampleSettings ⟨none, false, none⟩
    sampleItem DEFAULT_SCHEDULE none "07:00" (by decide)
  exact ⟨h.1, h.2.1⟩

/-- C3: on a tick in a fresh minute with auto-trigger on, the engine
selects exactly the first entry in the collection that is active and
whose start time equals the minute string; after it fires,
`lastTriggered` blocks any further trigger in that minute, so a second
entry with the same start time never triggers separately. -/
theorem c3_first_match_selected (settings : AppSettings)
    (schedule : List ScheduleItem) (lt : Option String) (m : String)
    (e : ScheduleItem) (hauto : settings.isAutoEnabled = true)
    (hguard : lt ≠ some m) :
    (tickMatch settings schedule lt m = some e ↔
      ∃ l₁ l₂, schedule = l₁ ++ e :: l₂ ∧
        (e.isActive && e.startTime == m) = true ∧
        ∀ x ∈ l₁, (x.isActive && x.startTime == m) = false) ∧
    tickMatch settings schedule (some m) m = none := by
  refine ⟨?_, tickMatch_same_minute settings schedule m⟩
  rw [tickMatch, if_pos hauto, if_pos hguard]
  exact find?_eq_some_first _ schedule e

/-- Witness for C3: two active entries share start time `08:00`; the
first is selected and the minute guard blocks the second. -/
theorem c3_first_match_selected_witness :
    tickMatch sampleSettings [tieEntry1, tieEntry2] none "08:00" =
        some tieEntry1 ∧
      tickMatch sampleSettings [tieEntry1, tieEntry2] (some "08:00")
        "08:00" = none := by
  have h := c3_first_match_selected sampleSettings [tieEntry1, tieEntry2]
    none "08:00" tieEntry1 rfl (by decide)
  refine ⟨h.1.mpr ⟨[], [tieEntry2], rfl, by decide, ?_⟩, h.2⟩
  intro x hx
  cases hx

/-! ### Announcement sequencer lemmas -/

lemma setAnnouncing_notin_bodyEvents (settings : AppSettings) (env : BellEnv)
    (item : ScheduleItem) (b : Bool) :
    BellEvent.setAnnouncing b ∉ bodyEvents settings env item := by
  simp only [bodyEvents]
  cases env.audioData with
  | none => simp
  | some d =>
    by_cases hd : d == "" <;> by_cases hp : env.playbackFails <;>
      simp [hd, hp]

/-- C4: every `triggerBell` run that starts (the `isAnnouncing` guard was
false) sets `isAnnouncing` to true as its very first step, before the
chime and every other suspension point, touches the flag nowhere in the
body, and clears it as the very last step on every exit path — success,
synthesis failure, playback failure, or a throw after any number of
body steps. -/
theorem c4_isAnnouncing_bracketed (settings : AppSettings) (env : BellEnv)
    (item : ScheduleItem) :
    ∃ mid,
      triggerBellTrace settings false env item =
          BellEvent.setAnnouncing true ::
            (mid ++ [BellEvent.setAnnouncing false]) ∧
        (∀ b, BellEvent.setAnnouncing b ∉ mid) ∧
        (triggerBellTrace settings false env item).head? =
          some (BellEvent.setAnnouncing true) ∧
        announcingAfter false (triggerBellTrace settings false env item) =
          false := by
  refine ⟨match env.throwAfter with
    | none => bodyEvents settings env item
    | some k => (bodyEvents settings env item).take k, rfl, ?_, rfl, ?_⟩
  · intro b hb
    cases hta : env.throwAfter with
    | none =>
      rw [hta] at hb
      exact setAnnouncing_notin_bodyEvents settings env item b hb
    | some k =>
      rw [hta] at hb
      exact setAnnouncing_notin_bodyEvents settings env item b
        (List.mem_of_mem_take hb)
  · simp [triggerBellTrace, announcingAfter, List.foldl_append]

/-- C6: when the synthesis call returns no usable audio (JS-falsy:
`undefined` or the empty string) the fallback narration is invoked with
exactly the composed text and locale `id-ID` and no remote audio is
played; when audio came back but playback fails the fallback follows the
playback attempt with the same text; when playback succeeds no fallback
runs; and in every case the sequence completes, ending with
`setIsAnnouncing(false)`. -/
theorem c6_fallback_on_failure (settings : AppSettings) (item : ScheduleItem)
    (audioData : Option String) (playbackFails : Bool) :
    (jsTruthy audioData = false →
      BellEvent.fallbackSpeak (announcementText item) "id-ID" ∈
          triggerBellTrace settings false ⟨audioData, playbackFails, none⟩
            item ∧
        ∀ d, BellEvent.playAudio d ∉
          triggerBellTrace settings false ⟨audioData, playbackFails, none⟩
            item) ∧
    (∀ d, audioData = some d → (d == "") = false → playbackFails = true →
      BellEvent.playAudio d ∈
          triggerBellTrace settings false ⟨audioData, playbackFails, none⟩
            item ∧
        BellEvent.fallbackSpeak (announcementText item) "id-ID" ∈
          triggerBellTrace settings false ⟨audioData, playbackFails, none⟩
            item) ∧
    (∀ d, audioData = some d → (d == "") = false → playbackFails = false →
      BellEvent.fallbackSpeak (announcementText item) "id-ID" ∉
        triggerBellTrace settings false ⟨audioData, playbackFails, none⟩
          item) ∧
    (triggerBellTrace settings false ⟨audioData, playbackFails, none⟩
        item).getLast? = some (BellEvent.setAnnouncing false) := by
  refine ⟨?_, ?_, ?_, ?_⟩
  · intro hfalsy
    cases hdata : audioData with
    | none => simp [triggerBellTrace, bodyEvents]
    | some d =>
      rw [hdata] at hfalsy
      simp only [jsTruthy, Bool.not_eq_false'] at hfalsy
      simp [triggerBellTrace, bodyEvents, hfalsy]
  · intro d hdata hne hpf
    subst hdata hpf
    simp [triggerBellTrace, bodyEvents, hne]
  · intro d hdata hne hpf
    subst hdata hpf
    simp [triggerBellTrace, bodyEvents, hne]
  · rw [show triggerBellTrace settings false ⟨audioData, playbackFails, none⟩
        item = BellEvent.setAnnouncing true ::
          (bodyEvents settings ⟨audioData, playbackFails, none⟩ item ++
            [BellEvent.setAnnouncing false]) from rfl,
      ← List.cons_append, List.getLast?_concat]

/-- Witness for C6: synthesis returns `undefined`, the fallback narrates
the composed text of the first default entry, and the run ends clearing
`isAnnouncing`. -/
theorem c6_fallback_on_failure_witness :
    BellEvent.fallbackSpeak (announcementText sampleItem) "id-ID" ∈
        triggerBellTrace sampleSettings false ⟨none, false, none⟩
          sampleItem ∧
      (triggerBellTrace sampleSettings false ⟨none, false, none⟩
          sampleItem).getLast? = some (BellEvent.setAnnouncing false) := by
  have h := c6_fallback_on_failure sampleSettings sampleItem none false
  exact ⟨(h.1 rfl).1, h.2.2.2⟩

/-- C10: the manual test path calls `triggerBell` directly with the row
entry; `triggerBell` never reads `isActive`, so an inactive entry
produces the identical full trace — chime, then the composed
announcement for that entry — whenever no announcement is in flight. -/
theorem c10_manual_test_ignores_isActive (settings : AppSettings)
    (item : ScheduleItem) (audioData : Option String)
    (playbackFails : Bool) :
    triggerBellTrace settings false ⟨audioData, playbackFails, none⟩
        { item with isActive := false } =
      triggerBellTrace settings false ⟨audioData, playbackFails, none⟩
        item ∧
    triggerBellTrace settings false ⟨audioData, playbackFails, none⟩
        item =
      BellEvent.setAnnouncing true ::
        (bodyEvents settings ⟨audioData, playbackFails, none⟩ item ++
          [BellEvent.setAnnouncing false]) ∧
    BellEvent.playChime ∈
      bodyEvents settings ⟨audioData, playbackFails, none⟩ item ∧
    BellEvent.synthesize (announcementText item) settings.voiceName ∈
      bodyEvents settings ⟨audioData, playbackFails, none⟩ item := by
  refine ⟨rfl, rfl, ?_, ?_⟩ <;> simp [bodyEvents]

/-! ### Substring occurrence lemmas for the announcement template -/

lemma charsHasPre_self_append (p r : List Char) :
    charsHasPre p (p ++ r) = true := by
  induction p with
  | nil => rfl
  | cons a as ih => simp [charsHasPre, ih]

lemma charsHasSub_append_mid (pm : List Char) :
    ∀ l r, charsHasSub pm (l ++ pm ++ r) = true := by
  intro l
  induction l with
  | nil =>
    intro r
    cases pm with
    | nil => cases r <;> simp [charsHasSub, charsHasPre]
    | cons p ps =>
      simp [charsHasSub, charsHasPre, charsHasPre_self_append]
  | cons c cs ih =>
    intro r
    have hih := ih r
    rw [List.append_assoc] at hih
    simp [charsHasSub, hih]

lemma strOccurs_hasSub {pat s : String} (h : strOccurs pat s) :
    charsHasSub pat.data s.data = true := by
  obtain ⟨l, r, heq⟩ := h
  rw [heq]
  exact charsHasSub_append_mid pat.data l r

lemma strOccurs_suffix (a pat : String) : strOccurs pat (a ++ pat) :=
  ⟨a.data, [], by simp [String.data_append]⟩

lemma strOccurs_self_append (pat t : String) : strOccurs pat (pat ++ t) :=
  ⟨[], t.data, by simp [String.data_append]⟩

lemma strOccurs_append_right {pat s : String} (h : strOccurs pat s)
    (t : String) : strOccurs pat (s ++ t) := by
  obtain ⟨l, r, heq⟩ := h
  exact ⟨l, r ++ t.data, by simp [String.data_append, heq, List.append_assoc]⟩

lemma strOccurs_trans {a b c : String} (h1 : strOccurs a b)
    (h2 : strOccurs b c) : strOccurs a c := by
  obtain ⟨l1, r1, hb⟩ := h1
  obtain ⟨l2, r2, hc⟩ := h2
  exact ⟨l2 ++ l1, r1 ++ r2, by simp [hc, hb, List.append_assoc]⟩

/-- C5 counterexample: the greeting of the composed announcement names
the hardcoded school, not the one from the settings.  With the school
renamed in the settings, the composed text for the first default entry
does not contain the settings' school name anywhere. -/
theorem c5_greeting_ignores_settings_counterexample :
    renamedSettings.schoolName = "SMA NEGERI 1" ∧
      ¬ strOccurs renamedSettings.schoolName (announcementText sampleItem) := by
  refine ⟨rfl, fun h => ?_⟩
  have hsub := strOccurs_hasSub h
  have hfalse : charsHasSub renamedSettings.schoolName.data
      (announcementText sampleItem).data = false := by decide
  rw [hfalse] at hsub
  exact absurd hsub (by decide)

/-- C5 (amended): the composed announcement text follows the fixed
template — every entry field (`period`, `startTime`, `gender` honorific,
`teacher`, `subject`, `className`) occurs in it, no field is omitted,
and the greeting names the hardcoded school `SMP ISLAM ARRAUDHOH`
(independent of the settings, which the composition never reads). -/
theorem c5_template_contains_all_fields (item : ScheduleItem) :
    strOccurs (toString item.period) (announcementText item) ∧
      strOccurs item.startTime (announcementText item) ∧
      strOccurs item.gender (announcementText item) ∧
      strOccurs item.teacher (announcementText item) ∧
      strOccurs item.subject (announcementText item) ∧
      strOccurs item.className (announcementText item) ∧
      strOccurs "SMP ISLAM ARRAUDHOH" (announcementText item) := by
  refine ⟨?_, ?_, ?_, ?_, ?_, ?_, ?_⟩
  · exact strOccurs_append_right (strOccurs_append_right
      (strOccurs_append_right (strOccurs_append_right
        (strOccurs_append_right (strOccurs_append_right
          (strOccurs_append_right (strOccurs_append_right
            (strOccurs_append_right (strOccurs_append_right
              (strOccurs_append_right (strOccurs_suffix
                (greeting ++ " Perhatian. Jam ke ")
                (toString item.period)) ". Pukul ") item.startTime)
              ". ") item.gender) " Guru ") item.teacher)
        ", pengampu mata pelajaran ") item.subject)
      ", dipersilakan masuk kelas ") item.className) ". Selamat belajar."
  · exact strOccurs_append_right (strOccurs_append_right
      (strOccurs_append_right (strOccurs_append_right
        (strOccurs_append_right (strOccurs_append_right
          (strOccurs_append_right (strOccurs_append_right
            (strOccurs_append_right (strOccurs_suffix
              (greeting ++ " Perhatian. Jam ke " ++ toString item.period ++
                ". Pukul ") item.startTime) ". ") item.gender) " Guru ")
          item.teacher) ", pengampu mata pelajaran ") item.subject)
        ", dipersilakan masuk kelas ") item.className) ". Selamat belajar."
  · exact strOccurs_append_right (strOccurs_append_right
      (strOccurs_append_right (strOccurs_append_right
        (strOccurs_append_right (strOccurs_append_right
          (strOccurs_append_right (strOccurs_suffix
            (greeting ++ " Perhatian. Jam ke " ++ toString item.period ++
              ". Pukul " ++ item.startTime ++ ". ") item.gender) " Guru ")
          item.teacher) ", pengampu mata pelajaran ") item.subject)
        ", dipersilakan masuk kelas ") item.className) ". Selamat belajar."
  · exact strOccurs_append_right (strOccurs_append_right
      (strOccurs_append_right (strOccurs_append_right
        (strOccurs_append_right (strOccurs_suffix
          (greeting ++ " Perhatian. Jam ke " ++ toString item.period ++
            ". Pukul " ++ item.startTime ++ ". " ++ item.gender ++ " Guru ")
          item.teacher) ", pengampu mata pelajaran ") item.subject)
        ", dipersilakan masuk kelas ") item.className) ". Selamat belajar."
  · exact strOccurs_append_right (strOccurs_append_right
      (strOccurs_append_right (strOccurs_suffix
        (greeting ++ " Perhatian. Jam ke " ++ toString item.period ++
          ". Pukul " ++ item.startTime ++ ". " ++ item.gender ++ " Guru " ++
          item.teacher ++ ", pengampu mata pelajaran ") item.subject)
        ", dipersilakan masuk kelas ") item.className) ". Selamat belajar."
  · exact strOccurs_append_right (strOccurs_suffix
      (greeting ++ " Perhatian. Jam ke " ++ toString item.period ++
        ". Pukul " ++ item.startTime ++ ". " ++ item.gender ++ " Guru " ++
        item.teacher ++ ", pengampu mata pelajaran " ++ item.subject ++
        ", dipersilakan masuk kelas ") item.className) ". Selamat belajar."
  · refine strOccurs_trans
      (b := greeting) ⟨("Assalamualaikum warahmatullohi wabarokatuh, kepada siswa ").data,
        (". ").data, by decide⟩ ?_
    exact strOccurs_append_right (strOccurs_append_right
      (strOccurs_append_right (strOccurs_append_right
        (strOccurs_append_right (strOccurs_append_right
          (strOccurs_append_right (strOccurs_append_right
            (strOccurs_append_right (strOccurs_append_right
              (strOccurs_append_right (strOccurs_append_right
                (strOccurs_self_append greeting " Perhatian. Jam ke ")
                (toString item.period)) ". Pukul ")
              item.startTime) ". ") item.gender) " Guru ") item.teacher)
          ", pengampu mata pelajaran ") item.subject)
        ", dipersilakan masuk kelas ") item.className) ". Selamat belajar."

/-! ### Startup loader -/

/-- C7 counterexample: the remote read succeeds but returns no rows
while a local snapshot with a custom entry exists; the loader seeds the
built-in defaults directly instead of falling back to the snapshot. -/
theorem c7_empty_remote_skips_local_counterexample :
    fetchedSchedule true (Except.ok []) false (some [localEntry]) =
        DEFAULT_SCHEDULE ∧
      fetchedSchedule true (Except.ok []) false (some [localEntry]) ≠
        [localEntry] := by
  exact ⟨rfl, by decide⟩

/-- C7 (amended): with no remote configured the loader uses the local
snapshot, else the built-in defaults.  When the remote schedule read
errors, it falls back to the local snapshot, and with no snapshot the
schedule is left in its initial empty state rather than seeded with
defaults.  When the schedule read succeeds and the settings read does
not throw, an empty result is replaced by the built-in defaults without
consulting the snapshot and a nonempty result is used as-is.  When the
schedule read succeeds but the subsequent settings read throws, the
local snapshot — when present — overwrites even the successfully
fetched rows, and with no snapshot the value the try block already set
(the fetched rows, or the defaults for an empty result) is kept. -/
theorem c7_startup_fallback (schedRes : Except Unit (List ScheduleItem))
    (settingsThrow : Bool) (localSched : Option (List ScheduleItem)) :
    (fetchedSchedule false schedRes settingsThrow localSched =
      match localSched with
      | some s => s
      | none => DEFAULT_SCHEDULE) ∧
    (∀ u, schedRes = Except.error u →
      fetchedSchedule true schedRes settingsThrow localSched =
        match localSched with
        | some s => s
        | none => []) ∧
    (fetchedSchedule true (Except.ok []) false localSched =
      DEFAULT_SCHEDULE) ∧
    (∀ data, data ≠ [] →
      fetchedSchedule true (Except.ok data) false localSched = data) ∧
    (∀ data, fetchedSchedule true (Except.ok data) true localSched =
      match localSched with
      | some s => s
      | none => if data.length > 0 then data else DEFAULT_SCHEDULE) := by
  refine ⟨rfl, ?_, rfl, ?_, ?_⟩
  · intro u h
    subst h
    rfl
  · intro data hd
    simp [fetchedSchedule, List.length_pos.mpr hd]
  · intro data
    cases localSched <;> rfl

/-- Witness for C7: an errored remote read falls back to the local
snapshot, a nonempty remote result is used as-is, and a settings-read
throw overwrites fetched rows with the snapshot when one exists. -/
theorem c7_startup_fallback_witness :
    fetchedSchedule true (Except.error ()) false (some [localEntry]) =
        [localEntry] ∧
      fetchedSchedule true (Except.ok [localEntry]) false none =
        [localEntry] ∧
      fetchedSchedule true (Except.ok DEFAULT_SCHEDULE) true
        (some [localEntry]) = [localEntry] := by
  have h1 := c7_startup_fallback (Except.error ()) false (some [localEntry])
  have h2 := c7_startup_fallback (Except.ok [localEntry]) false none
  have h3 := c7_startup_fallback (Except.ok DEFAULT_SCHEDULE) true
    (some [localEntry])
  exact ⟨h1.2.1 () rfl, h2.2.2.2.1 [localEntry] (by decide),
    h3.2.2.2.2 DEFAULT_SCHEDULE⟩

/-! ### Schedule store sortedness -/

lemma sortedByStart_sortSchedule (l : List ScheduleItem) :
    SortedByStart (sortSchedule l) :=
  @List.sorted_mergeSort ScheduleItem
    (fun a b => strLe a.startTime b.startTime)
    (fun _ _ _ hab hbc => strLe_trans hab hbc)
    (fun a b => by
      rcases strLe_total a.startTime b.startTime with h | h <;> simp [h])
    l

lemma eq_of_mem_of_id_eq :
    ∀ (l : List ScheduleItem), l.Pairwise (fun a b => a.id ≠ b.id) →
      ∀ x y : ScheduleItem, x ∈ l → y ∈ l → x.id = y.id → x = y := by
  intro l
  induction l with
  | nil =>
    intro _ x y hx _ _
    cases hx
  | cons a as ih =>
    intro hl x y hx hy hid
    rcases List.pairwise_cons.mp hl with ⟨ha, has⟩
    rcases List.mem_cons.mp hx with rfl | hx'
    · rcases List.mem_cons.mp hy with rfl | hy'
      · rfl
      · exact absurd hid (ha y hy')
    · rcases List.mem_cons.mp hy with rfl | hy'
      · exact absurd hid.symm (ha x hx')
      · exact ih has x y hx' hy' hid

lemma sorted_toggleActive {schedule : List ScheduleItem}
    (hs : SortedByStart schedule)
    (hid : schedule.Pairwise (fun a b => a.id ≠ b.id)) (i : String) :
    SortedByStart (toggleActive schedule i) := by
  unfold toggleActive
  cases hfind : schedule.find? (fun item => item.id == i) with
  | none => exact hs
  | some itemToToggle =>
    have hpres : ∀ x ∈ schedule,
        ((fun item => if item.id == i
          then { itemToToggle with isActive := !itemToToggle.isActive }
          else item) x).startTime = x.startTime := by
      intro x hx
      by_cases hxid : (x.id == i) = true
      · have hmem := List.mem_of_find?_eq_some hfind
        have hidt := List.find?_some hfind
        simp only [beq_iff_eq] at hidt
        have hxid2 := hxid
        rw [beq_iff_eq] at hxid2
        have hxy : x = itemToToggle :=
          eq_of_mem_of_id_eq schedule hid x itemToToggle hx hmem
            (by rw [hxid2, hidt])
        simp [hxy, hidt]
      · simp [hxid]
    unfold SortedByStart
    rw [List.pairwise_map]
    refine List.Pairwise.imp_of_mem ?_ hs
    intro a b ha hb hab
    rw [hpres a ha, hpres b hb]
    exact hab

/-- C8 counterexample: on a start-time-sorted collection in which two
entries share an id, `toggleActive` replaces both occurrences with the
toggled copy of the first, destroying the sort order. -/
theorem c8_duplicate_id_counterexample :
    SortedByStart [dupA1, dupB, dupA2] ∧
      ¬ SortedByStart (toggleActive [dupA1, dupB, dupA2] "a") := by
  decide

/-- C8 (amended): starting from any collection sorted ascending by
`startTime` whose entries have pairwise distinct ids, every mutation —
add, edit, delete, toggle-active — yields a collection still sorted
ascending by `startTime` (add and edit re-sort unconditionally; delete
takes a sublist; toggle rewrites one entry keeping its start time). -/
theorem c8_mutations_preserve_sorted (schedule : List ScheduleItem)
    (hs : SortedByStart schedule)
    (hid : schedule.Pairwise (fun a b => a.id ≠ b.id)) :
    (∀ newId newItem,
      SortedByStart (handleAddSchedule schedule newId newItem)) ∧
      (∀ u, SortedByStart (handleEditSchedule schedule u)) ∧
      (∀ i, SortedByStart (handleDelete schedule i)) ∧
      (∀ i, SortedByStart (toggleActive schedule i)) :=
  ⟨fun _ _ => sortedByStart_sortSchedule _,
    fun _ => sortedByStart_sortSchedule _,
    fun _ => List.Pairwise.sublist (List.filter_sublist _) hs,
    fun i => sorted_toggleActive hs hid i⟩

/-- Witness for C8: deleting and toggling on the sorted default schedule
keep it sorted. -/
theorem c8_mutations_preserve_sorted_witness :
    SortedByStart (handleDelete DEFAULT_SCHEDULE "3") ∧
      SortedByStart (toggleActive DEFAULT_SCHEDULE "2") := by
  have h := c8_mutations_preserve_sorted DEFAULT_SCHEDULE (by decide)
    (by decide)
  exact ⟨h.2.2.1 "3", h.2.2.2 "2"⟩

/-! ### Next-bell derived view -/

/-- C9: the next-bell view returns none exactly when no active entry
starts strictly after the current time, and any entry it returns is an
active entry of the collection starting strictly after the current time
whose start time is least among all such entries. -/
theorem c9_nextBell_least_upcoming (schedule : List ScheduleItem)
    (nowStr : String) :
    (nextBell schedule nowStr = none ↔
      ∀ e ∈ schedule,
        ¬(e.isActive = true ∧ strLt nowStr e.startTime = true)) ∧
    ∀ e, nextBell schedule nowStr = some e →
      e ∈ schedule ∧ e.isActive = true ∧ strLt nowStr e.startTime = true ∧
        ∀ x ∈ schedule, x.isActive = true → strLt nowStr x.startTime = true →
          strLe e.startTime x.startTime = true := by
  have hperm := List.mergeSort_perm
    (schedule.filter fun i => i.isActive && strLt nowStr i.startTime)
    (fun a b => strLe a.startTime b.startTime)
  have hsorted := sortedByStart_sortSchedule
    (schedule.filter fun i => i.isActive && strLt nowStr i.startTime)
  constructor
  · rw [nextBell, List.head?_eq_none_iff]
    constructor
    · intro hnil e he hactive
      have hfil : schedule.filter
          (fun i => i.isActive && strLt nowStr i.startTime) = [] := by
        have := hperm.length_eq
        rw [show sortSchedule (schedule.filter
          (fun i => i.isActive && strLt nowStr i.startTime)) =
            List.mergeSort (schedule.filter
              (fun i => i.isActive && strLt nowStr i.startTime))
              (fun a b => strLe a.startTime b.startTime) from rfl] at hnil
        rw [hnil] at this
        exact List.length_eq_zero.mp this.symm
      have : e ∈ schedule.filter
          (fun i => i.isActive && strLt nowStr i.startTime) :=
        List.mem_filter.mpr ⟨he, by simp [hactive.1, hactive.2]⟩
      rw [hfil] at this
      cases this
    · intro hnone
      have hfil : schedule.filter
          (fun i => i.isActive && strLt nowStr i.startTime) = [] := by
        rw [List.filter_eq_nil_iff]
        intro a ha
        simp only [Bool.and_eq_true, not_and]
        intro h1 h2
        exact hnone a ha ⟨h1, h2⟩
      rw [show sortSchedule (schedule.filter
        (fun i => i.isActive && strLt nowStr i.startTime)) =
          List.mergeSort (schedule.filter
            (fun i => i.isActive && strLt nowStr i.startTime))
            (fun a b => strLe a.startTime b.startTime) from rfl, hfil]
      simp [List.mergeSort]
  · intro e he
    rw [nextBell] at he
    cases hl : sortSchedule (schedule.filter
        fun i => i.isActive && strLt nowStr i.startTime) with
    | nil => rw [hl] at he; cases he
    | cons a rest =>
      rw [hl] at he
      injection he with he
      subst he
      have hemem : a ∈ schedule.filter
          (fun i => i.isActive && strLt nowStr i.startTime) := by
        rw [← hperm.mem_iff]
        show a ∈ sortSchedule (schedule.filter
          fun i => i.isActive && strLt nowStr i.startTime)
        rw [hl]
        exact List.mem_cons_self _ _
      have hef := List.mem_filter.mp hemem
      have hprop : a.isActive = true ∧ strLt nowStr a.startTime = true := by
        have := hef.2
        simpa [Bool.and_eq_true] using this
      refine ⟨hef.1, hprop.1, hprop.2, ?_⟩
      intro x hx hxa hxlt
      have hxf : x ∈ schedule.filter
          (fun i => i.isActive && strLt nowStr i.startTime) :=
        List.mem_filter.mpr ⟨hx, by simp [hxa, hxlt]⟩
      have hxs : x ∈ sortSchedule (schedule.filter
          fun i => i.isActive && strLt nowStr i.startTime) :=
        hperm.mem_iff.mpr hxf
      rw [hl] at hxs
      rcases List.mem_cons.mp hxs with rfl | hxrest
      · exact strLe_refl _
      · have hpw := hsorted
        rw [hl] at hpw
        exact (List.pairwise_cons.mp hpw).1 x hxrest

/-- Witness for C9 on the default schedule at `08:00`: the next bell is
the third entry, starting `08:30`. -/
theorem c9_nextBell_least_upcoming_witness :
    nextBell DEFAULT_SCHEDULE "08:00" = some nextEntry ∧
      nextEntry ∈ DEFAULT_SCHEDULE ∧ nextEntry.isActive = true ∧
      strLt "08:00" nextEntry.startTime = true := by
  have hev : nextBell DEFAULT_SCHEDULE "08:00" = some nextEntry := by
    simp [nextBell, sortSchedule, DEFAULT_SCHEDULE, nextEntry,
      List.mergeSort, List.merge, strLt, strLe, charsLt]
  have h := (c9_nextBell_least_upcoming DEFAULT_SCHEDULE "08:00").2
    nextEntry hev
  exact ⟨hev, h.1, h.2.1, h.2.2.1⟩

end SchoolBell
